import Mathlib

/-!
# OneShotTimer (services/surfaceflinger/Scheduler/OneShotTimer.cpp)

A shallow embedding of the timer's worker loop and of its public operations as a
labelled transition system.

* The shared members (`mStopTriggered`, `mResetTriggered`, `mWaiting`, `mPaused`,
  `mLastResetTime`, `mSemaphore`, `mThread`) are fields of `Timer`.
* The locals of `OneShotTimer::loop` (`state`, `triggerReset`, `triggerTimeout`,
  `triggerTime`) together with a program counter are the fields of `Worker`.  Program
  counters are named after the source line the worker is about to execute.
* Every worker step performs one line group of `loop` (at most one blocking call, one
  callback, or one call of `checkForResetAndStop`); calls of the public operations and
  clock advances are interleaved with worker steps.  Each public operation is one atomic
  step, except `stop`, which is split at its blocking `join`.
* The semaphore is its count together with the thread that sleeps on it: `sem_post`
  increments the count, a wait decrements it when it is positive, and a wait that finds
  it zero puts the worker to sleep inside the call (program points `W96`, `W123`, `W141`)
  until a post makes the count positive.  `sem_init` sets the count to 0 and forgets
  the sleeper: a worker that is asleep with nothing posted stays asleep, and no later
  post wakes it (program points `O96`, `O123`, `O141`).  `semValid` records `sem_init` /
  `sem_destroy`; the operations act on the count whether or not the semaphore is valid.
* A blocking call may return without the count having been decremented (`EINTR`, and
  `ETIMEDOUT` for the timed wait); the code continues in either case.  The timed wait
  measures its deadline on the system clock, not on the injected clock, so its time-out
  is an outcome chosen by the schedule.
* The `LOG_ALWAYS_FATAL` paths (failure of a semaphore call with another error) abort the
  process and are not part of the model.
* Time points and durations are integers (nanoseconds); arithmetic overflow of the
  64 bit representation is not modelled.
-/

namespace OneShotTimer

/-- The worker's logical state, `OneShotTimer::TimerState`. -/
inductive TimerState where
  | STOPPED
  | RESET
  | WAITING
  | IDLE
  deriving DecidableEq

/-- The two user callbacks; `Timer.calls` records their invocations in order. -/
inductive Callback where
  | onReset
  | onTimeout
  deriving DecidableEq

/-- Program points of `OneShotTimer::loop`, named after source lines.
`L90`, `L113`, `L131`, `L150` are the four calls of `checkForResetAndStop`;
`L96`, `L123` are `sem_wait`; `L141` is `sem_clockwait`; `done` is the returned thread.
At `L96`, `L123`, `L141` the worker is about to make the call; at `W96`, `W123`, `W141`
it is asleep inside the call and the semaphore will wake it at a post; at `O96`, `O123`,
`O141` it is asleep inside the call but `sem_init` has made the semaphore forget it. -/
inductive Pc where
  | L90 | L96 | L109 | L113 | L118 | L121 | L122 | L123 | L130 | L131
  | L137 | L138 | L141 | L149 | L150 | L155 | L161 | L167 | done
  | W96 | W123 | W141 | O96 | O123 | O141
  deriving DecidableEq

/-- Outcome of a step at a blocking semaphore call: the count was decremented
(`acquired`), the call returned `EINTR` (`interrupted`), `sem_clockwait` returned
`ETIMEDOUT` (`timedOut`), or the call found the count zero and the thread went to
sleep inside it (`blocked`). -/
inductive Wake where
  | acquired
  | interrupted
  | timedOut
  | blocked
  deriving DecidableEq

/-- Locals of `OneShotTimer::loop` and the program point of the worker thread. -/
structure Worker where
  pc : Pc
  state : TimerState
  triggerReset : Bool
  triggerTimeout : Bool
  triggerTime : Int
  deriving DecidableEq

/-- The members of a `OneShotTimer` object, the clock reading and the callback history.
`resetCallback` / `timeoutCallback` say whether the `std::function` is non-empty;
`thread = some k` means `mThread.joinable()`. -/
structure Timer where
  interval : Int
  resetCallback : Bool
  timeoutCallback : Bool
  now : Int
  lastResetTime : Int
  stopTriggered : Bool
  resetTriggered : Bool
  waiting : Bool
  paused : Bool
  semaphore : Nat
  semValid : Bool
  thread : Option Worker
  calls : List Callback
  deriving DecidableEq

/-- Steps of the system: the public operations, a clock advance, a worker step. -/
inductive Action where
  | start
  | stopSignal
  | stopJoin
  | reset
  | pause
  | resume
  | tick (d : Nat)
  | worker (w : Wake)
  deriving DecidableEq

/-- The value of `std::chrono::steady_clock::time_point::min()` in nanoseconds. -/
def timePointMin : Int := -9223372036854775808

/-- Modelled from the spec: the member initialisers of OneShotTimer.h, which is not among
the sources.  The constructor (lines 42-52) sets `mLastResetTime` to `time_point::min()`;
the four signal flags start clear, no thread exists and the semaphore is not initialised. -/
def init (interval : Int) (resetCallback timeoutCallback : Bool) (now : Int) : Timer :=
  { interval := interval
    resetCallback := resetCallback
    timeoutCallback := timeoutCallback
    now := now
    lastResetTime := timePointMin
    stopTriggered := false
    resetTriggered := false
    waiting := false
    paused := false
    semaphore := 0
    semValid := false
    thread := none
    calls := [] }

/-- `OneShotTimer::checkForResetAndStop` (lines 173-184) on the two flags it exchanges.
Returns the new state and the new values of `mStopTriggered` and `mResetTriggered`. -/
def checkForResetAndStop (state : TimerState) (stopTriggered resetTriggered : Bool) :
    TimerState × Bool × Bool :=
  if stopTriggered then (TimerState.STOPPED, false, resetTriggered)
  else if state ≠ TimerState.STOPPED ∧ resetTriggered = true then
    (TimerState.RESET, false, false)
  else (state, false, resetTriggered)

/-- The worker as created by `std::thread(&OneShotTimer::loop, this)`: line 85 has run. -/
def newWorker : Worker :=
  { pc := Pc.L90
    state := TimerState.RESET
    triggerReset := false
    triggerTimeout := false
    triggerTime := 0 }

/-- A call of `sem_wait` (lines 96 and 123): it decrements the count when that is
positive, puts the thread to sleep inside the call (program point `asleep`) when it is
zero, or returns `EINTR`; on return the caller continues at `next`. -/
def semWait (w : Wake) (t : Timer) (k : Worker) (asleep next : Pc) : Option Timer :=
  match w with
  | Wake.acquired =>
    if 0 < t.semaphore then
      some { t with semaphore := t.semaphore - 1, thread := some { k with pc := next } }
    else none
  | Wake.interrupted => some { t with thread := some { k with pc := next } }
  | Wake.timedOut => none
  | Wake.blocked =>
    if t.semaphore = 0 then some { t with thread := some { k with pc := asleep } } else none

/-- A call of `sem_clockwait` (line 141): as `semWait`, and it may also return
`ETIMEDOUT`.  Its deadline is on the system's monotonic clock (`calculateTimeoutTime`),
not on `mClock`, so the time-out is not tied to `Timer.now`. -/
def semClockWait (w : Wake) (t : Timer) (k : Worker) (asleep next : Pc) : Option Timer :=
  match w with
  | Wake.acquired =>
    if 0 < t.semaphore then
      some { t with semaphore := t.semaphore - 1, thread := some { k with pc := next } }
    else none
  | Wake.interrupted => some { t with thread := some { k with pc := next } }
  | Wake.timedOut => some { t with thread := some { k with pc := next } }
  | Wake.blocked =>
    if t.semaphore = 0 then some { t with thread := some { k with pc := asleep } } else none

/-- A thread asleep inside `sem_wait`, known to the semaphore: once a post has made the
count positive it wakes and decrements the count; it may also return by `EINTR`. -/
def semAsleep (w : Wake) (t : Timer) (k : Worker) (next : Pc) : Option Timer :=
  match w with
  | Wake.acquired =>
    if 0 < t.semaphore then
      some { t with semaphore := t.semaphore - 1, thread := some { k with pc := next } }
    else none
  | Wake.interrupted => some { t with thread := some { k with pc := next } }
  | Wake.timedOut => none
  | Wake.blocked => none

/-- A thread asleep inside `sem_clockwait`, known to the semaphore: as `semAsleep`, and
it may also return by `ETIMEDOUT`. -/
def semClockAsleep (w : Wake) (t : Timer) (k : Worker) (next : Pc) : Option Timer :=
  match w with
  | Wake.acquired =>
    if 0 < t.semaphore then
      some { t with semaphore := t.semaphore - 1, thread := some { k with pc := next } }
    else none
  | Wake.interrupted => some { t with thread := some { k with pc := next } }
  | Wake.timedOut => some { t with thread := some { k with pc := next } }
  | Wake.blocked => none

/-- A thread asleep inside `sem_wait` on a semaphore that `sem_init` has re-initialised
under it: the semaphore does not know of the sleeper, so no post wakes it, whatever the
count; it returns only by `EINTR`. -/
def semOrphaned (w : Wake) (t : Timer) (k : Worker) (next : Pc) : Option Timer :=
  match w with
  | Wake.acquired => none
  | Wake.interrupted => some { t with thread := some { k with pc := next } }
  | Wake.timedOut => none
  | Wake.blocked => none

/-- A thread asleep inside `sem_clockwait` on a semaphore that `sem_init` has
re-initialised under it: as `semOrphaned`, and it may also return by `ETIMEDOUT`. -/
def semClockOrphaned (w : Wake) (t : Timer) (k : Worker) (next : Pc) : Option Timer :=
  match w with
  | Wake.acquired => none
  | Wake.interrupted => some { t with thread := some { k with pc := next } }
  | Wake.timedOut => some { t with thread := some { k with pc := next } }
  | Wake.blocked => none

/-- The program point of a sleeper after `sem_init` has re-initialised the semaphore it
sleeps on; other program points are not affected. -/
def orphaned (pc : Pc) : Pc :=
  match pc with
  | Pc.W96 => Pc.O96
  | Pc.W123 => Pc.O123
  | Pc.W141 => Pc.O141
  | p => p

/-- The call `sem_init(&mSemaphore, 0, 0)`: the count becomes 0 and the semaphore is
valid and knows of no sleeper.  A worker asleep on it with nothing posted (count 0)
stays asleep, unknown to the semaphore; a sleeper for which a post is pending (count
positive) is awake already, finds the count 0 and goes to sleep again, known. -/
def semInit (t : Timer) : Timer :=
  { t with
    semaphore := 0, semValid := true,
    thread :=
      if t.semaphore = 0 then t.thread.map fun k => { k with pc := orphaned k.pc }
      else t.thread }

/-- One step of `OneShotTimer::loop` (lines 85-170) for the worker `k` of timer `t`;
`none` when the worker is blocked or has returned.  The outcome `w` is consulted only
at the three blocking calls and while the worker is asleep in one of them. -/
def loop (w : Wake) (t : Timer) (k : Worker) : Option Timer :=
  match k.pc with
  | Pc.L90 =>
    -- lines 87-93, 95, 105-107
    let r := checkForResetAndStop k.state t.stopTriggered t.resetTriggered
    let t1 := { t with stopTriggered := r.2.1, resetTriggered := r.2.2 }
    let k1 := { k with state := r.1, triggerReset := false, triggerTimeout := false }
    if r.1 = TimerState.STOPPED then some { t1 with thread := some { k1 with pc := Pc.done } }
    else if r.1 = TimerState.IDLE then some { t1 with thread := some { k1 with pc := Pc.L96 } }
    else
      some { t1 with
        thread := some { k1 with pc := Pc.L109, triggerReset := decide (r.1 = TimerState.RESET) } }
  | Pc.L96 => semWait w t k Pc.W96 Pc.L90
  | Pc.W96 => semAsleep w t k Pc.L90
  | Pc.O96 => semOrphaned w t k Pc.L90
  | Pc.L109 =>
    -- lines 109-111
    if k.triggerReset = true ∧ t.resetCallback = true then
      some { t with calls := t.calls ++ [Callback.onReset], thread := some { k with pc := Pc.L113 } }
    else some { t with thread := some { k with pc := Pc.L113 } }
  | Pc.L113 =>
    -- lines 113-116
    let r := checkForResetAndStop k.state t.stopTriggered t.resetTriggered
    let t1 := { t with stopTriggered := r.2.1, resetTriggered := r.2.2 }
    if r.1 = TimerState.STOPPED then
      some { t1 with thread := some { k with state := r.1, pc := Pc.done } }
    else some { t1 with thread := some { k with state := r.1, pc := Pc.L118 } }
  | Pc.L118 =>
    -- lines 118-119
    some { t with
      thread := some { k with
        triggerTime := t.now + t.interval, state := TimerState.WAITING, pc := Pc.L121 } }
  | Pc.L121 =>
    if t.paused = true then some { t with thread := some { k with pc := Pc.L122 } }
    else some { t with thread := some { k with pc := Pc.L137 } }
  | Pc.L122 => some { t with waiting := true, thread := some { k with pc := Pc.L123 } }
  | Pc.L123 => semWait w t k Pc.W123 Pc.L130
  | Pc.W123 => semAsleep w t k Pc.L130
  | Pc.O123 => semOrphaned w t k Pc.L130
  | Pc.L130 => some { t with waiting := false, thread := some { k with pc := Pc.L131 } }
  | Pc.L131 =>
    -- lines 131-134
    let r := checkForResetAndStop k.state t.stopTriggered t.resetTriggered
    let t1 := { t with stopTriggered := r.2.1, resetTriggered := r.2.2 }
    if r.1 = TimerState.STOPPED then
      some { t1 with thread := some { k with state := r.1, pc := Pc.L167 } }
    else some { t1 with thread := some { k with state := r.1, pc := Pc.L137 } }
  | Pc.L137 =>
    if 0 < k.triggerTime - t.now then some { t with thread := some { k with pc := Pc.L138 } }
    else some { t with thread := some { k with pc := Pc.L149 } }
  | Pc.L138 => some { t with waiting := true, thread := some { k with pc := Pc.L141 } }
  | Pc.L141 => semClockWait w t k Pc.W141 Pc.L149
  | Pc.W141 => semClockAsleep w t k Pc.L149
  | Pc.O141 => semClockOrphaned w t k Pc.L149
  | Pc.L149 => some { t with waiting := false, thread := some { k with pc := Pc.L150 } }
  | Pc.L150 =>
    -- lines 150-153
    let r := checkForResetAndStop k.state t.stopTriggered t.resetTriggered
    let t1 := { t with stopTriggered := r.2.1, resetTriggered := r.2.2 }
    if r.1 = TimerState.STOPPED then
      some { t1 with thread := some { k with state := r.1, pc := Pc.L167 } }
    else some { t1 with thread := some { k with state := r.1, pc := Pc.L155 } }
  | Pc.L155 =>
    -- lines 155-159
    if t.paused = false ∧ k.state = TimerState.WAITING ∧ k.triggerTime - t.now ≤ 0 then
      some { t with
        thread := some { k with triggerTimeout := true, state := TimerState.IDLE, pc := Pc.L167 } }
    else some { t with thread := some { k with pc := Pc.L161 } }
  | Pc.L161 =>
    -- lines 161-164
    if k.state = TimerState.RESET then
      some { t with
        thread := some { k with
          triggerTime := t.lastResetTime + t.interval, state := TimerState.WAITING, pc := Pc.L121 } }
    else some { t with thread := some { k with pc := Pc.L121 } }
  | Pc.L167 =>
    -- lines 167-169
    if k.triggerTimeout = true ∧ t.timeoutCallback = true then
      some { t with calls := t.calls ++ [Callback.onTimeout], thread := some { k with pc := Pc.L90 } }
    else some { t with thread := some { k with pc := Pc.L90 } }
  | Pc.done => none

/-- `OneShotTimer::start` (lines 58-66): `sem_init(&mSemaphore, 0, 0)`, whether or not
the worker runs, then create the thread unless one is joinable. -/
def start (t : Timer) : Timer :=
  match (semInit t).thread with
  | none => { semInit t with thread := some newWorker }
  | some _ => semInit t

/-- First half of `OneShotTimer::stop` (lines 69-71): set the flag and `sem_post`. -/
def stopSignal (t : Timer) : Timer :=
  { t with stopTriggered := true, semaphore := t.semaphore + 1 }

/-- Second half of `OneShotTimer::stop` (lines 73-77): when the thread is joinable, wait
for it to return, join it and `sem_destroy`; otherwise nothing.  `none` while the
joinable worker is still running, i.e. the caller is blocked in `join`. -/
def stopJoin (t : Timer) : Option Timer :=
  match t.thread with
  | none => some t
  | some k => if k.pc = Pc.done then some { t with thread := none, semValid := false } else none

/-- `OneShotTimer::stop` (lines 68-78) as one step, for a caller that `join` does not
keep waiting: no thread is joinable, or the worker has returned already. -/
def stop (t : Timer) : Option Timer :=
  stopJoin (stopSignal t)

/-- `OneShotTimer::reset` (lines 186-195). -/
def reset (t : Timer) : Timer :=
  if t.waiting = true then { t with lastResetTime := t.now, resetTriggered := true }
  else { t with lastResetTime := t.now, resetTriggered := true, semaphore := t.semaphore + 1 }

/-- `OneShotTimer::pause` (lines 197-199). -/
def pause (t : Timer) : Timer :=
  { t with paused := true }

/-- `OneShotTimer::resume` (lines 201-205). -/
def resume (t : Timer) : Timer :=
  if t.paused = true then { t with paused := false, semaphore := t.semaphore + 1 } else t

/-- One step of the system. -/
def step (a : Action) (t : Timer) : Option Timer :=
  match a with
  | Action.start => some (start t)
  | Action.stopSignal => some (stopSignal t)
  | Action.stopJoin => stopJoin t
  | Action.reset => some (reset t)
  | Action.pause => some (pause t)
  | Action.resume => some (resume t)
  | Action.tick d => some { t with now := t.now + d }
  | Action.worker w =>
    match t.thread with
    | none => none
    | some k => loop w t k

/-- Run a schedule; `none` when some step of it is not enabled. -/
def run : List Action → Timer → Option Timer
  | [], t => some t
  | a :: rest, t =>
    match step a t with
    | none => none
    | some t1 => run rest t1

/-- The states a timer built by the constructor can be in. -/
def Reachable (t : Timer) : Prop :=
  ∃ (interval : Int) (rc tc : Bool) (now : Int) (acts : List Action),
    run acts (init interval rc tc now) = some t

/-- The step `a` taken from `t` is an evaluation of `checkForResetAndStop` that consumes
the reset flag: the flag is set before it and clear after it. -/
def observes (a : Action) (t : Timer) : Bool :=
  match a, t.thread with
  | Action.worker _, some k =>
    decide (k.pc = Pc.L90 ∨ k.pc = Pc.L113 ∨ k.pc = Pc.L131 ∨ k.pc = Pc.L150) &&
      (t.resetTriggered &&
        !(checkForResetAndStop k.state t.stopTriggered t.resetTriggered).2.2)
  | _, _ => false

/-- History of the `reset()` calls of a run: the clock values recorded by calls whose
flag no evaluation of `checkForResetAndStop` has consumed yet (`pending`), and those
recorded by calls whose flag has been consumed (`observed`).  The history is derived
from the run; it does not influence any step. -/
structure ResetLog where
  pending : List Int
  observed : List Int
  deriving DecidableEq

/-- The history after the step `a` taken from `t`: `reset()` records the clock value
as pending; an evaluation that consumes the reset flag observes every pending reset. -/
def logStep (a : Action) (t : Timer) (h : ResetLog) : ResetLog :=
  match a with
  | Action.reset => { h with pending := t.now :: h.pending }
  | _ => if observes a t = true then { pending := [], observed := h.pending ++ h.observed } else h

/-- Run a schedule as `run` does, keeping the history of the resets. -/
def runLog : List Action → Timer → ResetLog → Option (Timer × ResetLog)
  | [], t, h => some (t, h)
  | a :: rest, t, h =>
    match step a t with
    | none => none
    | some t1 => runLog rest t1 (logStep a t h)

/-- Invariant relating the recorded reset time stamps to the clock and the deadline. -/
def LogInv (t : Timer) (h : ResetLog) : Prop :=
  (∀ r ∈ h.pending, r ≤ t.lastResetTime) ∧
  (∀ r ∈ h.observed, r ≤ t.lastResetTime) ∧
  ((h.pending ≠ [] ∨ h.observed ≠ []) → t.lastResetTime ≤ t.now) ∧
  (∀ k, t.thread = some k → k.state = TimerState.WAITING →
    ∀ r ∈ h.observed, r + t.interval ≤ k.triggerTime)

/-- Invariant of the worker's control state. -/
def Inv (t : Timer) : Prop :=
  match t.thread with
  | none => t.waiting = false
  | some k =>
    (t.waiting = true →
      k.pc = Pc.L123 ∨ k.pc = Pc.W123 ∨ k.pc = Pc.O123 ∨ k.pc = Pc.L130 ∨
        k.pc = Pc.L141 ∨ k.pc = Pc.W141 ∨ k.pc = Pc.O141 ∨ k.pc = Pc.L149) ∧
    (k.pc = Pc.L96 ∨ k.pc = Pc.W96 ∨ k.pc = Pc.O96 → k.state = TimerState.IDLE) ∧
    (k.pc = Pc.L167 →
      k.state = TimerState.IDLE ∨ (k.state = TimerState.STOPPED ∧ k.triggerTimeout = false)) ∧
    (k.triggerTimeout = true → k.pc = Pc.L167 ∨ k.pc = Pc.L90) ∧
    (k.pc = Pc.L109 → k.triggerReset = true → k.state = TimerState.RESET)

/-- Steps that are no call of a public operation: clock advances and worker steps. -/
def isPassive (a : Action) : Bool :=
  match a with
  | Action.tick _ => true
  | Action.worker _ => true
  | _ => false

/-- The worker's program points after each step of a schedule. -/
def pcsAlong : List Action → Timer → List (Option Pc)
  | [], _ => []
  | a :: rest, t =>
    match step a t with
    | none => []
    | some t1 => t1.thread.map Worker.pc :: pcsAlong rest t1

/-- The worker sits in the IDLE branch of the outer loop (at its check, about to call
the idle `sem_wait`, or asleep in it) with nothing pending and the semaphore empty,
after exactly one `onReset` and one `onTimeout`. -/
def IdleAfterTimeout (t : Timer) : Prop :=
  t.calls = [Callback.onReset, Callback.onTimeout] ∧ t.stopTriggered = false ∧
    t.resetTriggered = false ∧ t.semaphore = 0 ∧
    ∃ k, t.thread = some k ∧ k.state = TimerState.IDLE ∧
      (k.pc = Pc.L96 ∨ k.pc = Pc.W96 ∨ k.pc = Pc.L90)

/-- Control states of a started timer on which no public operation is called: the
callback history is a prefix of `onReset, onTimeout` that matches the program point. -/
def Undisturbed (t : Timer) : Prop :=
  t.stopTriggered = false ∧ t.resetTriggered = false ∧ t.paused = false ∧
  t.semaphore = 0 ∧ t.resetCallback = true ∧ t.timeoutCallback = true ∧
  ∃ k, t.thread = some k ∧
    ((t.calls = [] ∧ k.pc = Pc.L90 ∧ k.state = TimerState.RESET) ∨
     (t.calls = [] ∧ k.pc = Pc.L109 ∧ k.state = TimerState.RESET ∧ k.triggerReset = true ∧
        k.triggerTimeout = false) ∨
     (t.calls = [Callback.onReset] ∧ k.triggerTimeout = false ∧
        ((k.pc = Pc.L113 ∧ k.state = TimerState.RESET) ∨ k.pc = Pc.L118)) ∨
     (t.calls = [Callback.onReset] ∧ k.triggerTimeout = false ∧
        k.state = TimerState.WAITING ∧
        (k.pc = Pc.L121 ∨ k.pc = Pc.L137 ∨ k.pc = Pc.L138 ∨ k.pc = Pc.L141 ∨
          k.pc = Pc.W141 ∨ k.pc = Pc.L149 ∨ k.pc = Pc.L150 ∨ k.pc = Pc.L155 ∨
          k.pc = Pc.L161)) ∨
     (t.calls = [Callback.onReset] ∧ k.pc = Pc.L167 ∧ k.state = TimerState.IDLE ∧
        k.triggerTimeout = true) ∨
     (t.calls = [Callback.onReset, Callback.onTimeout] ∧ k.state = TimerState.IDLE ∧
        (k.pc = Pc.L90 ∨ k.pc = Pc.L96 ∨ k.pc = Pc.W96)))

/-- The schedule of the basic time-out scenario: `start`, seven worker steps up to the
timed wait, the clock advancing by `d` while the worker waits, the wait timing out, and
five worker steps from line 149 to the idle `sem_wait`. -/
def basicTimeout (d : Nat) (w : Wake) : List Action :=
  [Action.start] ++ List.replicate 7 (Action.worker w) ++
    [Action.tick d, Action.worker Wake.timedOut] ++ List.replicate 5 (Action.worker w)

/-! ## Sample schedules and states -/

/-- A worker step whose outcome at a blocking call is `EINTR`. -/
def wstep : Action := Action.worker Wake.interrupted

/-- Two resets arrive while the worker is in the timed wait (clock 8 and 10), the wait
returns, the worker observes them and re-arms, and the clock reaches 17. -/
def resetTwiceDuringWait : List Action :=
  [Action.start] ++ List.replicate 7 wstep ++
    [Action.tick 8, Action.reset, Action.tick 2, Action.reset] ++
    List.replicate 8 wstep ++ [Action.tick 7] ++ List.replicate 3 wstep

/-- The state `resetTwiceDuringWait` leads to from `init 5 true true 0`: the worker is at the
elapsed check of line 155 with deadline 15 and the clock at 17. -/
def firingState : Timer :=
  { init 5 true true 0 with
    now := 17, lastResetTime := 10, semValid := true, calls := [Callback.onReset],
    thread := some ⟨Pc.L155, TimerState.WAITING, true, false, 15⟩ }

/-- While the worker is in the timed wait, `reset()` and then `stop()` are called; the
worker wakes and arrives at the check of line 150 with both flags set. -/
def stopAndResetDuringWait : List Action :=
  [Action.start] ++ List.replicate 7 wstep ++
    [Action.reset, Action.stopSignal, Action.worker Wake.acquired, wstep]

/-- The state `stopAndResetDuringWait` leads to from `init 5 true true 100`. -/
def stopAndResetPending : Timer :=
  { init 5 true true 100 with
    lastResetTime := 100, stopTriggered := true, resetTriggered := true, semValid := true,
    calls := [Callback.onReset],
    thread := some ⟨Pc.L150, TimerState.WAITING, true, false, 105⟩ }

/-- The worker at the check of line 150 with a reset, recorded at clock 103, pending. -/
def resetPending : Timer :=
  { init 5 true true 100 with
    now := 103, lastResetTime := 103, resetTriggered := true, semValid := true,
    calls := [Callback.onReset],
    thread := some ⟨Pc.L150, TimerState.WAITING, true, false, 105⟩ }

/-- The worker asleep in the paused `sem_wait` of line 123 with deadline 105 while the
clock is at 109. -/
def pausedPastDeadline : Timer :=
  { init 5 true true 100 with
    now := 109, waiting := true, paused := true, semValid := true,
    calls := [Callback.onReset],
    thread := some ⟨Pc.W123, TimerState.WAITING, true, false, 105⟩ }

/-- The worker of a freshly started timer about to run the reset callback (line 109). -/
def beforeResetCallback : Timer :=
  { init 5 true true 100 with
    semValid := true, thread := some ⟨Pc.L109, TimerState.RESET, true, false, 0⟩ }

/-- The state after the reset callback of `beforeResetCallback` has run. -/
def afterResetCallback : Timer :=
  { init 5 true true 100 with
    semValid := true, calls := [Callback.onReset],
    thread := some ⟨Pc.L113, TimerState.RESET, true, false, 0⟩ }

/-- The calls `start(); stop()` on a fresh timer: the worker sees the stop flag at its
first check and returns, and `stop` joins it. -/
def stopOnce : List Action :=
  [Action.start, Action.stopSignal, wstep, Action.stopJoin]

/-- The calls `start(); stop(); stop()`. -/
def stopTwice : List Action :=
  stopOnce ++ [Action.stopSignal, Action.stopJoin]

/-- The basic time-out scenario followed by the worker's call of the idle `sem_wait`,
which finds the count zero: the worker is asleep in it. -/
def asleepIdle : List Action :=
  basicTimeout 7 Wake.interrupted ++ [Action.worker Wake.blocked]

/-- The basic time-out scenario followed by `reset()`: the worker is about to call the
idle `sem_wait` and a release is pending. -/
def idleThenReset : List Action :=
  basicTimeout 7 Wake.interrupted ++ [Action.reset]

/-! ## Invariants -/


theorem start_eq (t : Timer) :
    start t =
      { t with
        semaphore := 0, semValid := true,
        thread :=
          match t.thread with
          | none => some newWorker
          | some k => some { k with pc := if t.semaphore = 0 then orphaned k.pc else k.pc } } := by
  cases hk : t.thread with
  | none => by_cases h0 : t.semaphore = 0 <;> simp [start, semInit, hk, h0]
  | some k => by_cases h0 : t.semaphore = 0 <;> simp [start, semInit, hk, h0]

theorem orphaned_cases (pc : Pc) :
    orphaned pc = pc ∨ (pc = Pc.W96 ∧ orphaned pc = Pc.O96) ∨
      (pc = Pc.W123 ∧ orphaned pc = Pc.O123) ∨ (pc = Pc.W141 ∧ orphaned pc = Pc.O141) := by
  cases pc <;> simp [orphaned]

theorem inv_init (i : Int) (rc tc : Bool) (n : Int) : Inv (init i rc tc n) := by
  simp [Inv, init]

theorem inv_loop (w : Wake) (t t1 : Timer) (k : Worker) (hk : t.thread = some k)
    (h : Inv t) (hs : loop w t k = some t1) : Inv t1 := by
  obtain ⟨pc, st, tr, tt, tm⟩ := k
  simp only [Inv, hk] at h
  cases pc <;> simp only [loop, semWait, semClockWait, semAsleep, semClockAsleep, semOrphaned,
    semClockOrphaned, checkForResetAndStop] at hs
  all_goals (first | (split at hs) | skip)
  all_goals (first | (split at hs) | skip)
  all_goals (first | (split at hs) | skip)
  all_goals (first | (split at hs) | skip)
  all_goals cases hs
  all_goals simp_all [Inv]

theorem inv_step (a : Action) (t t1 : Timer) (h : Inv t) (hs : step a t = some t1) : Inv t1 := by
  cases a with
  | worker w =>
    simp only [step] at hs
    cases hk : t.thread with
    | none => simp [hk] at hs
    | some k => rw [hk] at hs; exact inv_loop w t t1 k hk h hs
  | start =>
    simp only [step, Option.some.injEq] at hs
    subst hs
    rw [start_eq]
    unfold Inv at h ⊢
    cases hk : t.thread with
    | none => simp_all [newWorker]
    | some k =>
      obtain ⟨pc, st, tr, tt, tm⟩ := k
      by_cases h0 : t.semaphore = 0 <;> cases pc <;> simp_all [orphaned]
  | stopJoin =>
    simp only [step, stopJoin] at hs
    unfold Inv at h ⊢
    cases hk : t.thread with
    | none => simp_all
    | some k =>
      simp only [hk] at hs h
      split at hs
      · simp at hs; subst hs; simp; rcases h with ⟨h1, -⟩; cases hw : t.waiting <;> simp_all
      · cases hs
  | stopSignal => simp only [step, stopSignal, Option.some.injEq] at hs; subst hs; simpa [Inv] using h
  | reset =>
    simp only [step, reset] at hs
    split at hs <;> (simp only [Option.some.injEq] at hs; subst hs; simpa [Inv] using h)
  | pause => simp only [step, pause, Option.some.injEq] at hs; subst hs; simpa [Inv] using h
  | resume =>
    simp only [step, resume] at hs
    split at hs <;> (simp only [Option.some.injEq] at hs; subst hs; simpa [Inv] using h)
  | tick d => simp only [step, Option.some.injEq] at hs; subst hs; simpa [Inv] using h

theorem loop_frame (w : Wake) (t t1 : Timer) (k : Worker) (hk : t.thread = some k)
    (hs : loop w t k = some t1) :
    ∃ k1, t1.thread = some k1 ∧ t1.interval = t.interval ∧ t1.now = t.now ∧
      t1.lastResetTime = t.lastResetTime ∧
      (t1.resetTriggered = true → t.resetTriggered = true) ∧
      (observes (Action.worker w) t = true → t.resetTriggered = true ∧ k1.state = TimerState.RESET) ∧
      (k1.state = TimerState.WAITING →
        (k.state = TimerState.WAITING ∧ k1.triggerTime = k.triggerTime) ∨
        k1.triggerTime = t.now + t.interval ∨
        k1.triggerTime = t.lastResetTime + t.interval) := by
  obtain ⟨pc, st, tr, tt, tm⟩ := k
  cases pc <;> simp only [loop, semWait, semClockWait, semAsleep, semClockAsleep, semOrphaned,
    semClockOrphaned, checkForResetAndStop] at hs
  all_goals (first | (split at hs) | skip)
  all_goals (first | (split at hs) | skip)
  all_goals (first | (split at hs) | skip)
  all_goals (first | (split at hs) | skip)
  all_goals cases hs
  all_goals simp_all [observes, checkForResetAndStop]

theorem mem_ne_nil (r : Int) (l : List Int) (h : r ∈ l) : l ≠ [] :=
  fun hn => by simp [hn] at h

theorem logInv_loop (w : Wake) (t t1 : Timer) (k : Worker) (h : ResetLog)
    (hk : t.thread = some k) (hinv : LogInv t h) (hs : loop w t k = some t1) :
    LogInv t1 (logStep (Action.worker w) t h) := by
  obtain ⟨k1, hk1, hi, hn, hl, -, ho, hw⟩ := loop_frame w t t1 k hk hs
  obtain ⟨h0, h1, h2, h3⟩ := hinv
  have h3 := h3 k hk
  simp only [logStep]
  by_cases hobs : observes (Action.worker w) t = true
  · obtain ⟨-, hst⟩ := ho hobs
    simp only [hobs, if_true]
    refine ⟨?_, ?_, ?_, ?_⟩
    · intro r hr
      simp at hr
    · intro r hr
      rw [hl]
      rcases List.mem_append.1 hr with hr | hr
      · exact h0 r hr
      · exact h1 r hr
    · intro hh
      rw [hl, hn]
      rcases hh with hh | hh
      · exact absurd rfl hh
      · apply h2
        cases hp : h.pending with
        | nil => right; simpa [hp] using hh
        | cons a l => left; simp
    · intro k2 hk2 hst2
      rw [hk1] at hk2
      cases hk2
      rw [hst] at hst2
      cases hst2
  · simp only [hobs]
    refine ⟨?_, ?_, ?_, ?_⟩
    · intro r hr; rw [hl]; exact h0 r hr
    · intro r hr; rw [hl]; exact h1 r hr
    · intro hh; rw [hl, hn]; exact h2 hh
    · intro k2 hk2 hst2 r hrm
      rw [hk1] at hk2
      cases hk2
      have a1 := h1 r hrm
      have a2 := h2 (Or.inr (mem_ne_nil r _ hrm))
      rw [hi]
      rcases hw hst2 with ⟨hw1, hw2⟩ | hw2 | hw2
      · rw [hw2]; exact h3 hw1 r hrm
      · rw [hw2]; omega
      · rw [hw2]; omega

theorem logInv_step (a : Action) (t t1 : Timer) (h : ResetLog)
    (hinv : LogInv t h) (hs : step a t = some t1) : LogInv t1 (logStep a t h) := by
  cases a with
  | worker w =>
    simp only [step] at hs
    cases hk : t.thread with
    | none => simp [hk] at hs
    | some k => rw [hk] at hs; exact logInv_loop w t t1 k h hk hinv hs
  | start =>
    simp only [step, Option.some.injEq] at hs
    subst hs
    rw [start_eq]
    obtain ⟨h0, h1, h2, h3⟩ := hinv
    cases hk : t.thread <;> simp_all [observes, LogInv, newWorker, logStep]
  | stopJoin =>
    simp only [step, stopJoin] at hs
    obtain ⟨h0, h1, h2, h3⟩ := hinv
    cases hk : t.thread with
    | none => simp_all [observes, LogInv, logStep]
    | some k =>
      simp only [hk] at hs
      split at hs
      · simp at hs; subst hs; simp_all [observes, LogInv, logStep]
      · cases hs
  | stopSignal =>
    simp only [step, stopSignal, Option.some.injEq] at hs; subst hs
    simpa [LogInv, observes, logStep] using hinv
  | reset =>
    obtain ⟨h0, h1, h2, h3⟩ := hinv
    have hb0 : ∀ r ∈ h.pending, r ≤ t.now :=
      fun r hr => le_trans (h0 r hr) (h2 (Or.inl (mem_ne_nil r _ hr)))
    have hb1 : ∀ r ∈ h.observed, r ≤ t.now :=
      fun r hr => le_trans (h1 r hr) (h2 (Or.inr (mem_ne_nil r _ hr)))
    simp only [step, reset] at hs
    split at hs <;>
      (simp only [Option.some.injEq] at hs; subst hs; simp [LogInv, logStep]
       exact ⟨hb0, hb1, h3⟩)
  | pause =>
    simp only [step, pause, Option.some.injEq] at hs; subst hs
    simpa [LogInv, observes, logStep] using hinv
  | resume =>
    simp only [step, resume] at hs
    split at hs <;>
      (simp only [Option.some.injEq] at hs; subst hs; simpa [LogInv, observes, logStep] using hinv)
  | tick d =>
    simp only [step, Option.some.injEq] at hs; subst hs
    obtain ⟨h0, h1, h2, h3⟩ := hinv
    simp only [LogInv, observes, logStep]
    refine ⟨by simpa using h0, by simpa using h1, ?_, by simpa using h3⟩
    intro hh
    have := h2 (by simpa using hh)
    simp
    omega

theorem inv_run (acts : List Action) (t t1 : Timer) (h : Inv t)
    (hs : run acts t = some t1) : Inv t1 := by
  induction acts generalizing t with
  | nil => simp only [run, Option.some.injEq] at hs; rw [← hs]; exact h
  | cons a rest ih =>
    simp only [run] at hs
    cases hst : step a t with
    | none => simp [hst] at hs
    | some t2 =>
      rw [hst] at hs
      exact ih t2 (inv_step a t t2 h hst) hs

theorem inv_of_reachable (t : Timer) (h : Reachable t) : Inv t := by
  obtain ⟨i, rc, tc, n, acts, hrun⟩ := h
  exact inv_run acts _ t (inv_init i rc tc n) hrun

theorem logInv_run (acts : List Action) (t t1 : Timer) (h h1 : ResetLog)
    (hinv : LogInv t h) (hs : runLog acts t h = some (t1, h1)) : LogInv t1 h1 := by
  induction acts generalizing t h with
  | nil =>
    simp only [runLog, Option.some.injEq, Prod.mk.injEq] at hs
    rw [← hs.1, ← hs.2]
    exact hinv
  | cons a rest ih =>
    simp only [runLog] at hs
    cases hst : step a t with
    | none => simp [hst] at hs
    | some t2 =>
      rw [hst] at hs
      exact ih t2 _ (logInv_step a t t2 h hinv hst) hs

theorem logInv_init (i : Int) (rc tc : Bool) (n : Int) : LogInv (init i rc tc n) ⟨[], []⟩ := by
  simp [LogInv, init]

theorem step_interval (a : Action) (u u1 : Timer) (hu : step a u = some u1) :
    u1.interval = u.interval := by
  cases a with
  | worker w =>
    simp only [step] at hu
    cases hk : u.thread with
    | none => simp [hk] at hu
    | some k =>
      rw [hk] at hu
      obtain ⟨_, _, hi, _⟩ := loop_frame w u u1 k hk hu
      exact hi
  | start =>
    simp only [step, Option.some.injEq] at hu
    subst hu
    rw [start_eq]
  | stopJoin =>
    simp only [step, stopJoin] at hu
    cases hk : u.thread with
    | none => simp [hk] at hu; rw [hu]
    | some k =>
      simp only [hk] at hu
      split at hu
      · simp at hu; subst hu; rfl
      · cases hu
  | stopSignal => simp only [step, stopSignal, Option.some.injEq] at hu; subst hu; rfl
  | reset =>
    simp only [step, reset] at hu
    split at hu <;> (simp only [Option.some.injEq] at hu; subst hu; rfl)
  | pause => simp only [step, pause, Option.some.injEq] at hu; subst hu; rfl
  | resume =>
    simp only [step, resume] at hu
    split at hu <;> (simp only [Option.some.injEq] at hu; subst hu; rfl)
  | tick d => simp only [step, Option.some.injEq] at hu; subst hu; rfl

theorem runLog_interval (acts : List Action) (t t1 : Timer) (h h1 : ResetLog)
    (hs : runLog acts t h = some (t1, h1)) : t1.interval = t.interval := by
  induction acts generalizing t h with
  | nil => simp only [runLog, Option.some.injEq, Prod.mk.injEq] at hs; rw [← hs.1]
  | cons a rest ih =>
    simp only [runLog] at hs
    cases hst : step a t with
    | none => simp [hst] at hs
    | some t2 =>
      rw [hst] at hs
      rw [ih t2 _ hs, step_interval a t t2 hst]

theorem runLog_run (acts : List Action) (t t1 : Timer) (h h1 : ResetLog)
    (hs : runLog acts t h = some (t1, h1)) : run acts t = some t1 := by
  induction acts generalizing t h with
  | nil => simp only [runLog, Option.some.injEq, Prod.mk.injEq] at hs; simp [run, hs.1]
  | cons a rest ih =>
    simp only [runLog] at hs
    simp only [run]
    cases hst : step a t with
    | none => simp [hst] at hs
    | some t2 =>
      rw [hst] at hs
      exact ih t2 _ hs

theorem idleAfterTimeout_step (a : Action) (t t1 : Timer) (hp : isPassive a = true)
    (h : IdleAfterTimeout t) (hs : step a t = some t1) : IdleAfterTimeout t1 := by
  obtain ⟨hc, hst, hr, hsem, k, hk, hks, hpc⟩ := h
  cases a with
  | tick d =>
    simp only [step, Option.some.injEq] at hs
    subst hs
    exact ⟨hc, hst, hr, hsem, k, hk, hks, hpc⟩
  | worker w =>
    obtain ⟨pc, st, tr, tt, tm⟩ := k
    simp only at hks hpc
    subst hks
    simp only [step, hk] at hs
    rcases hpc with rfl | rfl | rfl
    · cases w <;> simp [loop, semWait, hsem] at hs
      · subst hs
        exact ⟨hc, hst, hr, by simp [hsem], _, rfl, rfl, Or.inr (Or.inr rfl)⟩
      · subst hs
        exact ⟨hc, hst, hr, by simp [hsem], _, rfl, rfl, Or.inr (Or.inl rfl)⟩
    · cases w <;> simp [loop, semAsleep, hsem] at hs
      subst hs
      exact ⟨hc, hst, hr, by simp [hsem], _, rfl, rfl, Or.inr (Or.inr rfl)⟩
    · simp [loop, checkForResetAndStop, hst, hr] at hs
      subst hs
      exact ⟨hc, rfl, by simp [hr], hsem, _, rfl, rfl, Or.inl rfl⟩
  | start => simp [isPassive] at hp
  | stopSignal => simp [isPassive] at hp
  | stopJoin => simp [isPassive] at hp
  | reset => simp [isPassive] at hp
  | pause => simp [isPassive] at hp
  | resume => simp [isPassive] at hp

theorem idleAfterTimeout_run (sched : List Action) (t t1 : Timer)
    (hp : ∀ a ∈ sched, isPassive a = true)
    (h : IdleAfterTimeout t) (hs : run sched t = some t1) : IdleAfterTimeout t1 := by
  induction sched generalizing t with
  | nil => simp only [run, Option.some.injEq] at hs; rw [← hs]; exact h
  | cons a rest ih =>
    simp only [run] at hs
    cases hst : step a t with
    | none => simp [hst] at hs
    | some t2 =>
      rw [hst] at hs
      exact ih t2 (fun b hb => hp b (List.mem_cons_of_mem _ hb))
        (idleAfterTimeout_step a t t2 (hp a (List.mem_cons_self _ _)) h hst) hs

theorem undisturbed_step (a : Action) (t t1 : Timer) (hp : isPassive a = true)
    (h : Undisturbed t) (hs : step a t = some t1) : Undisturbed t1 := by
  obtain ⟨hst, hr, hpa, hsem, hrc, htc, k, hk, hcase⟩ := h
  cases a with
  | tick d =>
    simp only [step, Option.some.injEq] at hs
    subst hs
    exact ⟨hst, hr, hpa, hsem, hrc, htc, k, hk, hcase⟩
  | worker w =>
    obtain ⟨pc, st, tr, tt, tm⟩ := k
    simp only [step, hk] at hs
    simp only at hcase
    rcases hcase with ⟨hc, rfl, rfl⟩ | ⟨hc, rfl, rfl, rfl, rfl⟩ | ⟨hc, rfl, ⟨rfl, rfl⟩ | rfl⟩ |
      ⟨hc, rfl, rfl, rfl | rfl | rfl | rfl | rfl | rfl | rfl | rfl | rfl⟩ |
      ⟨hc, rfl, rfl, rfl⟩ | ⟨hc, rfl, rfl | rfl | rfl⟩
    all_goals simp only [loop, semWait, semClockWait, semAsleep, semClockAsleep, semOrphaned,
    semClockOrphaned, checkForResetAndStop] at hs
    all_goals (first | (split at hs) | skip)
    all_goals (first | (split at hs) | skip)
    all_goals (first | (split at hs) | skip)
    all_goals cases hs
    all_goals simp_all [Undisturbed]
  | start => simp [isPassive] at hp
  | stopSignal => simp [isPassive] at hp
  | stopJoin => simp [isPassive] at hp
  | reset => simp [isPassive] at hp
  | pause => simp [isPassive] at hp
  | resume => simp [isPassive] at hp

theorem undisturbed_run (sched : List Action) (t t1 : Timer)
    (hp : ∀ a ∈ sched, isPassive a = true)
    (h : Undisturbed t) (hs : run sched t = some t1) : Undisturbed t1 := by
  induction sched generalizing t with
  | nil => simp only [run, Option.some.injEq] at hs; rw [← hs]; exact h
  | cons a rest ih =>
    simp only [run] at hs
    cases hst : step a t with
    | none => simp [hst] at hs
    | some t2 =>
      rw [hst] at hs
      exact ih t2 (fun b hb => hp b (List.mem_cons_of_mem _ hb))
        (undisturbed_step a t t2 (hp a (List.mem_cons_self _ _)) h hst) hs

theorem undisturbed_start (T now0 : Int) : Undisturbed (start (init T true true now0)) := by
  simp [Undisturbed, start, semInit, init, newWorker]

theorem api_thread_calls (a : Action) (t t1 : Timer) (hs : step a t = some t1)
    (hw : ∀ w, a ≠ Action.worker w) :
    t1.calls = t.calls ∧
      (t1.thread = t.thread ∨ (a = Action.start ∧ t.thread = none ∧ t1.thread = some newWorker) ∨
        (a = Action.start ∧ ∃ k, t.thread = some k ∧ k.pc ≠ orphaned k.pc ∧
          t1.thread = some { k with pc := orphaned k.pc }) ∨
        (a = Action.stopJoin ∧ t1.thread = none)) := by
  cases a with
  | worker w => exact absurd rfl (hw w)
  | start =>
    simp only [step, Option.some.injEq] at hs
    subst hs
    rw [start_eq]
    cases hk : t.thread with
    | none => simp
    | some k =>
      by_cases h0 : t.semaphore = 0
      · by_cases h1 : k.pc = orphaned k.pc
        · simp [h0, ← h1]
        · simp [h0, h1]
      · simp [h0]
  | stopJoin =>
    simp only [step, stopJoin] at hs
    cases hk : t.thread with
    | none => simp [hk] at hs; subst hs; simp [hk]
    | some k =>
      simp only [hk] at hs
      split at hs
      · simp at hs; subst hs; simp
      · cases hs
  | stopSignal => simp only [step, stopSignal, Option.some.injEq] at hs; subst hs; simp
  | reset =>
    simp only [step, reset] at hs
    split at hs <;> (simp only [Option.some.injEq] at hs; subst hs; simp)
  | pause => simp only [step, pause, Option.some.injEq] at hs; subst hs; simp
  | resume =>
    simp only [step, resume] at hs
    split at hs <;> (simp only [Option.some.injEq] at hs; subst hs; simp)
  | tick d => simp only [step, Option.some.injEq] at hs; subst hs; simp

theorem loop_callbacks (w : Wake) (t t1 : Timer) (k : Worker) (hk : t.thread = some k)
    (hi : Inv t) (hs : loop w t k = some t1) :
    ∃ k1, t1.thread = some k1 ∧
      (t1.calls = t.calls ∨
        (k.pc = Pc.L109 ∧ k.state = TimerState.RESET ∧ t1.calls = t.calls ++ [Callback.onReset]) ∨
        (k.pc = Pc.L167 ∧ k.state = TimerState.IDLE ∧
          t1.calls = t.calls ++ [Callback.onTimeout])) ∧
      (k1.pc = Pc.L109 → k.pc = Pc.L90 ∧
        k1.state = (checkForResetAndStop k.state t.stopTriggered t.resetTriggered).1 ∧
        (k1.triggerReset = true ↔ k1.state = TimerState.RESET)) ∧
      (k1.pc = Pc.L90 → k1.state = TimerState.IDLE ∨ k1.state = TimerState.STOPPED) ∧
      (k.pc = Pc.L113 ∨ k.pc = Pc.L131 ∨ k.pc = Pc.L150 →
        observes (Action.worker w) t = true →
        k1.state = TimerState.RESET ∧ t1.calls = t.calls ∧
          (k1.pc = Pc.L118 ∨ k1.pc = Pc.L137 ∨ k1.pc = Pc.L155)) ∧
      (k.pc = Pc.L161 → k.state = TimerState.RESET →
        k1.state = TimerState.WAITING ∧ k1.pc = Pc.L121 ∧
          k1.triggerTime = t.lastResetTime + t.interval ∧ t1.calls = t.calls) ∧
      (k.pc = Pc.L118 →
        k1.state = TimerState.WAITING ∧ k1.pc = Pc.L121 ∧
          k1.triggerTime = t.now + t.interval ∧ t1.calls = t.calls) := by
  obtain ⟨pc, st, tr, tt, tm⟩ := k
  simp only [Inv, hk] at hi
  cases pc <;> simp only [loop, semWait, semClockWait, semAsleep, semClockAsleep, semOrphaned,
    semClockOrphaned, checkForResetAndStop] at hs
  all_goals (first | (split at hs) | skip)
  all_goals (first | (split at hs) | skip)
  all_goals (first | (split at hs) | skip)
  all_goals (first | (split at hs) | skip)
  all_goals cases hs
  all_goals simp_all [observes, checkForResetAndStop]
  rcases hi.2 with h | h
  · exact Or.inl h
  · exact Or.inr h.1

/-! ## Claims -/

/-- C1. In every run from a constructed timer, when the worker at the elapsed check of
line 155 sets `triggerTimeout` (decides to invoke `onTimeout`), the clock value it reads
is at least the deadline, and at least `r + interval` for the time stamp `r` of every
`reset()` whose flag an earlier evaluation of `checkForResetAndStop` has consumed:
`onTimeout` never fires before a full interval has elapsed after the last observed
reset. -/
theorem onTimeout_not_before_interval_after_observed_reset
    (interval : Int) (rc tc : Bool) (now0 : Int) (acts : List Action)
    (t t1 : Timer) (h : ResetLog) (k k1 : Worker) (w : Wake)
    (hrun : runLog acts (init interval rc tc now0) ⟨[], []⟩ = some (t, h))
    (hk : t.thread = some k) (hpc : k.pc = Pc.L155)
    (hstep : step (Action.worker w) t = some t1)
    (hk1 : t1.thread = some k1) (hfire : k1.triggerTimeout = true) :
    k.triggerTime ≤ t.now ∧ ∀ r ∈ h.observed, r + interval ≤ t.now := by
  have hinv := logInv_run acts _ t _ h (logInv_init interval rc tc now0) hrun
  have hint : t.interval = interval := runLog_interval acts _ t _ h hrun
  obtain ⟨_, _, _, h3⟩ := hinv
  have h3 := h3 k hk
  obtain ⟨pc, st, tr, tt, tm⟩ := k
  simp only at hpc
  subst hpc
  simp only [step, hk, loop] at hstep
  split at hstep
  · rename_i hc
    obtain ⟨_, hst, hle⟩ := hc
    simp only at hst hle h3 ⊢
    refine ⟨by omega, fun r hr => ?_⟩
    have := h3 hst r hr
    omega
  · simp only [Option.some.injEq] at hstep
    subst hstep
    simp only [Option.some.injEq] at hk1
    subst hk1
    simp only at hfire
    subst hfire
    exfalso
    have hi := inv_of_reachable t ⟨interval, rc, tc, now0, acts, runLog_run acts _ t _ h hrun⟩
    simp [Inv, hk] at hi

/-- Instance of C1 on the run `resetTwiceDuringWait`: resets at clock 8 and 10 observed
together, interval 5, time-out decided at clock 17. -/
theorem onTimeout_not_before_interval_after_observed_reset_witness :
    (15 : Int) ≤ 17 ∧ ∀ r ∈ [(10 : Int), 8], r + 5 ≤ 17 :=
  onTimeout_not_before_interval_after_observed_reset 5 true true 0 resetTwiceDuringWait
    firingState
    { firingState with thread := some ⟨Pc.L167, TimerState.IDLE, true, true, 15⟩ }
    ⟨[], [10, 8]⟩ ⟨Pc.L155, TimerState.WAITING, true, false, 15⟩
    ⟨Pc.L167, TimerState.IDLE, true, true, 15⟩ Wake.interrupted
    (by decide) rfl rfl (by decide) rfl rfl

/-- C2. For every interval `T > 0`, a freshly started timer with both callbacks set, on
which `reset`, `pause` and `stop` are never called and whose clock advances by `d ≥ T`
while the worker is in the timed wait, which then times out, has invoked `onReset` once
and then `onTimeout` once when the worker reaches the idle `sem_wait`; there the worker
is blocked (the semaphore is empty, the call puts the worker to sleep), and along every
further schedule of clock advances and worker steps (spurious wake-ups included) no
callback is invoked and the worker stays in state IDLE at the idle wait, asleep in it,
or at its check.  Moreover, however clock advances
and worker steps are interleaved after `start`, the callbacks invoked are always an
initial part of `onReset, onTimeout`: neither callback is invoked twice. -/
theorem basic_timeout_fires_once_then_idle (T now0 : Int) (d : Nat) (w : Wake)
    (hT : 0 < T) (hd : T ≤ d) :
    ∃ t, run (basicTimeout d w) (init T true true now0) = some t ∧
      t.calls = [Callback.onReset, Callback.onTimeout] ∧
      t.thread = some
        { pc := Pc.L96, state := TimerState.IDLE, triggerReset := false,
          triggerTimeout := false, triggerTime := now0 + T } ∧
      t.semaphore = 0 ∧ t.waiting = false ∧
      step (Action.worker Wake.acquired) t = none ∧
      (∃ t2 k2, step (Action.worker Wake.blocked) t = some t2 ∧ t2.thread = some k2 ∧
        k2.pc = Pc.W96 ∧ k2.state = TimerState.IDLE ∧ t2.calls = t.calls) ∧
      (∀ sched t1, (∀ a ∈ sched, isPassive a = true) → run sched t = some t1 →
        t1.calls = [Callback.onReset, Callback.onTimeout] ∧
        ∃ k, t1.thread = some k ∧ k.state = TimerState.IDLE ∧
          (k.pc = Pc.L96 ∨ k.pc = Pc.W96 ∨ k.pc = Pc.L90)) ∧
      ∀ sched t1, (∀ a ∈ sched, isPassive a = true) →
        run (Action.start :: sched) (init T true true now0) = some t1 →
        t1.calls = [] ∨ t1.calls = [Callback.onReset] ∨
          t1.calls = [Callback.onReset, Callback.onTimeout] := by
  have h1 : ¬ (now0 + T - now0 ≤ 0) := by omega
  have h2 : now0 + T - (now0 + (d : Int)) ≤ 0 := by omega
  have h3 : 0 < now0 + T - now0 := by omega
  have hrun : run (basicTimeout d w) (init T true true now0) = some
      { interval := T, resetCallback := true, timeoutCallback := true, now := now0 + d,
        lastResetTime := timePointMin, stopTriggered := false, resetTriggered := false,
        waiting := false, paused := false, semaphore := 0, semValid := true,
        thread := some
          { pc := Pc.L96, state := TimerState.IDLE, triggerReset := false,
            triggerTimeout := false, triggerTime := now0 + T },
        calls := [Callback.onReset, Callback.onTimeout] } := by
    simp [basicTimeout, run, step, start, semInit, loop, init, newWorker,
      checkForResetAndStop, semClockWait, List.replicate, h1, h2, h3, hT, hd]
  refine ⟨_, hrun, rfl, rfl, rfl, rfl, ?_, ?_, ?_, ?_⟩
  · simp [step, loop, semWait]
  · refine ⟨_, ⟨Pc.W96, TimerState.IDLE, false, false, now0 + T⟩,
      (?_ : _ = some
        { interval := T, resetCallback := true, timeoutCallback := true, now := now0 + d,
          lastResetTime := timePointMin, stopTriggered := false, resetTriggered := false,
          waiting := false, paused := false, semaphore := 0, semValid := true,
          thread := some ⟨Pc.W96, TimerState.IDLE, false, false, now0 + T⟩,
          calls := [Callback.onReset, Callback.onTimeout] }),
      rfl, rfl, rfl, rfl⟩
    simp [step, loop, semWait]
  · intro sched t1 hp hs
    have := idleAfterTimeout_run sched _ t1 hp
      ⟨rfl, rfl, rfl, rfl, _, rfl, rfl, Or.inl rfl⟩ hs
    obtain ⟨hc, _, _, _, k, hk, hks, hpc⟩ := this
    exact ⟨hc, k, hk, hks, hpc⟩
  · intro sched t1 hp hs
    have hs1 : run sched (start (init T true true now0)) = some t1 := by
      simpa [run, step] using hs
    obtain ⟨_, _, _, _, _, _, k, _, hcase⟩ :=
      undisturbed_run sched _ t1 hp (undisturbed_start T now0) hs1
    rcases hcase with h | h | h | h | h | h
    · exact Or.inl h.1
    · exact Or.inl h.1
    · exact Or.inr (Or.inl h.1)
    · exact Or.inr (Or.inl h.1)
    · exact Or.inr (Or.inl h.1)
    · exact Or.inr (Or.inr h.1)

/-- Instance of C2 with interval 5 and a clock advance of 7. -/
theorem basic_timeout_fires_once_then_idle_witness :
    (0 : Int) < 5 ∧ (5 : Int) ≤ (7 : Nat) ∧
    ∃ t, run (basicTimeout 7 Wake.interrupted) (init 5 true true 100) = some t ∧
      t.calls = [Callback.onReset, Callback.onTimeout] :=
  ⟨by decide, by decide,
    (basic_timeout_fires_once_then_idle 5 100 7 Wake.interrupted (by decide) (by decide)).imp
      fun _ h => ⟨h.1, h.2.1⟩⟩

/-- C3. Stop takes precedence over reset.  `checkForResetAndStop` with the stop flag set
returns STOPPED for every input state and every value of the reset flag, clears the stop
flag and leaves the reset flag as it was.  In a reachable state where the worker is at
one of the four evaluations with the stop flag set, the evaluation yields STOPPED,
invokes no callback and keeps the reset flag; at the outer evaluations (lines 90, 113)
the thread returns at once, at the inner ones (lines 131, 150) it leaves the inner loop
and returns two steps later, again with no callback invoked and the reset flag kept. -/
theorem stop_takes_precedence_over_reset (t : Timer) (k : Worker) (w : Wake)
    (hr : Reachable t) (hk : t.thread = some k)
    (hpc : k.pc = Pc.L90 ∨ k.pc = Pc.L113 ∨ k.pc = Pc.L131 ∨ k.pc = Pc.L150)
    (hstop : t.stopTriggered = true) :
    (∀ (st : TimerState) (r : Bool),
      checkForResetAndStop st true r = (TimerState.STOPPED, false, r)) ∧
    ∃ t1 k1, step (Action.worker w) t = some t1 ∧ t1.thread = some k1 ∧
      k1.state = TimerState.STOPPED ∧ t1.stopTriggered = false ∧
      t1.resetTriggered = t.resetTriggered ∧ t1.calls = t.calls ∧
      ((k.pc = Pc.L90 ∨ k.pc = Pc.L113) → k1.pc = Pc.done) ∧
      ((k.pc = Pc.L131 ∨ k.pc = Pc.L150) →
        ∃ t3 k3, run [Action.worker w, Action.worker w] t1 = some t3 ∧
          t3.thread = some k3 ∧ k3.pc = Pc.done ∧ k3.state = TimerState.STOPPED ∧
          t3.calls = t.calls ∧ t3.resetTriggered = t.resetTriggered) := by
  refine ⟨fun st r => by simp [checkForResetAndStop], ?_⟩
  have hi := inv_of_reachable t hr
  obtain ⟨pc, st, tr, tt, tm⟩ := k
  simp only [Inv, hk] at hi
  simp only at hpc
  rcases hpc with rfl | rfl | rfl | rfl
  · refine ⟨{ t with stopTriggered := false, thread := some ⟨Pc.done, TimerState.STOPPED, false, false, tm⟩ },
      ⟨Pc.done, TimerState.STOPPED, false, false, tm⟩, ?_, rfl, rfl, rfl, rfl, rfl,
      fun _ => rfl, fun h => by simp at h⟩
    simp [step, hk, loop, checkForResetAndStop, hstop]
  · refine ⟨{ t with stopTriggered := false, thread := some ⟨Pc.done, TimerState.STOPPED, tr, tt, tm⟩ },
      ⟨Pc.done, TimerState.STOPPED, tr, tt, tm⟩, ?_, rfl, rfl, rfl, rfl, rfl,
      fun _ => rfl, fun h => by simp at h⟩
    simp [step, hk, loop, checkForResetAndStop, hstop]
  · have htt : tt = false := by
      cases tt
      · rfl
      · simp at hi
    subst htt
    refine ⟨{ t with stopTriggered := false, thread := some ⟨Pc.L167, TimerState.STOPPED, tr, false, tm⟩ },
      ⟨Pc.L167, TimerState.STOPPED, tr, false, tm⟩, ?_, rfl, rfl, rfl, rfl, rfl,
      fun h => by simp at h, fun _ =>
        ⟨{ t with stopTriggered := false, thread := some ⟨Pc.done, TimerState.STOPPED, false, false, tm⟩ },
          ⟨Pc.done, TimerState.STOPPED, false, false, tm⟩, ?_, rfl, rfl, rfl, rfl, rfl⟩⟩
    · simp [step, hk, loop, checkForResetAndStop, hstop]
    · simp [run, step, loop, checkForResetAndStop]
  · have htt : tt = false := by
      cases tt
      · rfl
      · simp at hi
    subst htt
    refine ⟨{ t with stopTriggered := false, thread := some ⟨Pc.L167, TimerState.STOPPED, tr, false, tm⟩ },
      ⟨Pc.L167, TimerState.STOPPED, tr, false, tm⟩, ?_, rfl, rfl, rfl, rfl, rfl,
      fun h => by simp at h, fun _ =>
        ⟨{ t with stopTriggered := false, thread := some ⟨Pc.done, TimerState.STOPPED, false, false, tm⟩ },
          ⟨Pc.done, TimerState.STOPPED, false, false, tm⟩, ?_, rfl, rfl, rfl, rfl, rfl⟩⟩
    · simp [step, hk, loop, checkForResetAndStop, hstop]
    · simp [run, step, loop, checkForResetAndStop]

/-- Instance of C3 at `stopAndResetPending`: stop and reset both pending at line 150. -/
theorem stop_takes_precedence_over_reset_witness :
    Reachable stopAndResetPending ∧
    ∃ t1 k1, step (Action.worker Wake.interrupted) stopAndResetPending = some t1 ∧
      t1.thread = some k1 ∧ k1.state = TimerState.STOPPED ∧ t1.stopTriggered = false ∧
      t1.resetTriggered = true ∧ t1.calls = [Callback.onReset] :=
  ⟨⟨5, true, true, 100, stopAndResetDuringWait, by decide⟩,
    (stop_takes_precedence_over_reset stopAndResetPending
      ⟨Pc.L150, TimerState.WAITING, true, false, 105⟩ Wake.interrupted
      ⟨5, true, true, 100, stopAndResetDuringWait, by decide⟩ rfl
      (Or.inr (Or.inr (Or.inr rfl))) rfl).2.imp
      fun _ h => h.imp fun _ h => ⟨h.1, h.2.1, h.2.2.1, h.2.2.2.1, h.2.2.2.2.1, h.2.2.2.2.2.1⟩⟩

/-- C4. Deadline anchoring.  When the worker in the inner loop is at an evaluation of
`checkForResetAndStop` (line 131 or 150) with a reset pending and no stop pending, then
within at most eight worker steps it is back at the head of the inner loop in state
WAITING with deadline exactly `lastResetTime + interval`, whatever the clock shows, and
no callback was invoked.  In particular, after two `reset()` calls at clock values
`now` and `now + g1` and a further clock advance `g2` before the worker's evaluation at
line 150, the deadline is `(now + g1) + interval`. -/
theorem observed_reset_anchors_deadline (t : Timer) (k : Worker) (g1 g2 : Nat)
    (hk : t.thread = some k) (hpc : k.pc = Pc.L131 ∨ k.pc = Pc.L150)
    (hst : k.state = TimerState.WAITING ∨ k.state = TimerState.RESET)
    (hstop : t.stopTriggered = false) :
    (t.resetTriggered = true →
      ∃ n, n ≤ 8 ∧ ∃ t1 k1,
        run (List.replicate n (Action.worker Wake.timedOut)) t = some t1 ∧
        t1.thread = some k1 ∧ k1.pc = Pc.L121 ∧ k1.state = TimerState.WAITING ∧
        k1.triggerTime = t.lastResetTime + t.interval ∧ t1.calls = t.calls) ∧
    (k.pc = Pc.L150 →
      ∃ t1 k1,
        run [Action.reset, Action.tick g1, Action.reset, Action.tick g2,
          Action.worker Wake.timedOut, Action.worker Wake.timedOut,
          Action.worker Wake.timedOut] t = some t1 ∧
        t1.thread = some k1 ∧ k1.pc = Pc.L121 ∧ k1.state = TimerState.WAITING ∧
        k1.triggerTime = (t.now + g1) + t.interval ∧ t1.calls = t.calls) := by
  obtain ⟨pc, st, tr, tt, tm⟩ := k
  simp only at hpc hst
  have hne : st ≠ TimerState.STOPPED := by rcases hst with rfl | rfl <;> simp
  constructor
  · intro hreset
    rcases hpc with rfl | rfl
    · by_cases hlt : 0 < tm - t.now
      · refine ⟨8, le_refl _, { t with resetTriggered := false, waiting := false, thread := some ⟨Pc.L121, TimerState.WAITING, tr, tt, t.lastResetTime + t.interval⟩ }, _, ?_, rfl, rfl, rfl, rfl, rfl⟩
        simp [List.replicate, run, step, hk, loop, checkForResetAndStop, hstop, hreset, hne, hlt,
          semClockWait]
      · refine ⟨6, by omega, { t with resetTriggered := false, waiting := false, thread := some ⟨Pc.L121, TimerState.WAITING, tr, tt, t.lastResetTime + t.interval⟩ }, _, ?_, rfl, rfl, rfl, rfl, rfl⟩
        simp [List.replicate, run, step, hk, loop, checkForResetAndStop, hstop, hreset, hne, hlt,
          semClockWait]
    · refine ⟨3, by omega, { t with resetTriggered := false, thread := some ⟨Pc.L121, TimerState.WAITING, tr, tt, t.lastResetTime + t.interval⟩ }, _, ?_, rfl, rfl, rfl, rfl, rfl⟩
      simp [List.replicate, run, step, hk, loop, checkForResetAndStop, hstop, hreset, hne]
  · intro h150
    rcases hpc with rfl | rfl
    · simp at h150
    · by_cases hw : t.waiting = true
      · refine ⟨{ t with now := t.now + g1 + g2, lastResetTime := t.now + g1, resetTriggered := false, thread := some ⟨Pc.L121, TimerState.WAITING, tr, tt, t.now + g1 + t.interval⟩ }, _, ?_, rfl, rfl, rfl, rfl, rfl⟩
        simp [run, step, hk, loop, checkForResetAndStop, hstop, hne, reset, hw]
      · refine ⟨{ t with now := t.now + g1 + g2, lastResetTime := t.now + g1, resetTriggered := false, semaphore := t.semaphore + 1 + 1, thread := some ⟨Pc.L121, TimerState.WAITING, tr, tt, t.now + g1 + t.interval⟩ }, _, ?_, rfl, rfl, rfl, rfl, rfl⟩
        simp [run, step, hk, loop, checkForResetAndStop, hstop, hne, reset, hw]

/-- Instance of C4 at `resetPending`: the reset was recorded at clock 103, so the new
deadline is 108. -/
theorem observed_reset_anchors_deadline_witness :
    resetPending.resetTriggered = true ∧
    ∃ n, n ≤ 8 ∧ ∃ t1 k1,
      run (List.replicate n (Action.worker Wake.timedOut)) resetPending = some t1 ∧
      t1.thread = some k1 ∧ k1.pc = Pc.L121 ∧ k1.state = TimerState.WAITING ∧
      k1.triggerTime = 103 + 5 ∧ t1.calls = [Callback.onReset] :=
  ⟨rfl,
    (observed_reset_anchors_deadline resetPending
      ⟨Pc.L150, TimerState.WAITING, true, false, 105⟩ 0 0 rfl (Or.inr rfl) (Or.inl rfl)
      rfl).1 rfl⟩

/-- C5. Pausing does not freeze the deadline.  When the worker is blocked in the paused
`sem_wait` (line 123: about to make the call, or asleep in it) in state WAITING with no
stop or reset pending, the clock is already at or past the deadline, and `resume()` is
called, then the worker wakes, passes lines 130, 131, 137, 149, 150, 155, 167 without
entering the timed wait (lines 138, 141), sets the state to IDLE and invokes `onTimeout`
in that same pass; the deadline itself is unchanged. -/
theorem resume_after_deadline_fires_at_once (t : Timer) (k : Worker) (g : Nat)
    (hk : t.thread = some k) (hpc : k.pc = Pc.L123 ∨ k.pc = Pc.W123)
    (hst : k.state = TimerState.WAITING)
    (hp : t.paused = true) (hstop : t.stopTriggered = false)
    (hreset : t.resetTriggered = false) (hdl : k.triggerTime ≤ t.now)
    (hcb : t.timeoutCallback = true) :
    ∃ t1 k1,
      run ([Action.resume, Action.tick g] ++ List.replicate 8 (Action.worker Wake.acquired)) t
        = some t1 ∧
      pcsAlong ([Action.resume, Action.tick g] ++ List.replicate 8 (Action.worker Wake.acquired)) t
        = [some k.pc, some k.pc, some Pc.L130, some Pc.L131, some Pc.L137, some Pc.L149,
            some Pc.L150, some Pc.L155, some Pc.L167, some Pc.L90] ∧
      t1.thread = some k1 ∧ k1.pc = Pc.L90 ∧ k1.state = TimerState.IDLE ∧
      k1.triggerTime = k.triggerTime ∧
      t1.calls = t.calls ++ [Callback.onTimeout] ∧
      t1.waiting = false ∧ t1.paused = false ∧ t1.semaphore = t.semaphore := by
  obtain ⟨pc, st, tr, tt, tm⟩ := k
  simp only at hpc hst hdl
  subst hst
  have h1 : ¬ (0 < tm - (t.now + (g : Int))) := by omega
  have h2 : tm - (t.now + (g : Int)) ≤ 0 := by omega
  have h3 : tm ≤ t.now + (g : Int) := by omega
  refine ⟨{ t with now := t.now + g, paused := false, waiting := false, calls := t.calls ++ [Callback.onTimeout], thread := some ⟨Pc.L90, TimerState.IDLE, tr, true, tm⟩ },
    _, ?_, ?_, rfl, rfl, rfl, rfl, rfl, rfl, rfl, rfl⟩
  · rcases hpc with rfl | rfl <;>
      simp [List.replicate, run, step, hk, loop, checkForResetAndStop, hstop, hreset, hp, hcb,
        resume, semWait, semAsleep, h1, h2, h3]
  · rcases hpc with rfl | rfl <;>
      simp [List.replicate, pcsAlong, step, hk, loop, checkForResetAndStop, hstop, hreset, hp,
        hcb, resume, semWait, semAsleep, h1, h2, h3]

/-- Instance of C5 at `pausedPastDeadline`: the worker is asleep in the paused wait,
deadline 105, `resume()` at clock 109. -/
theorem resume_after_deadline_fires_at_once_witness :
    (105 : Int) ≤ 109 ∧
    ∃ t1 k1,
      run ([Action.resume, Action.tick 0] ++ List.replicate 8 (Action.worker Wake.acquired))
        pausedPastDeadline = some t1 ∧
      t1.thread = some k1 ∧ k1.state = TimerState.IDLE ∧
      t1.calls = [Callback.onReset, Callback.onTimeout] :=
  ⟨by decide,
    (resume_after_deadline_fires_at_once pausedPastDeadline
      ⟨Pc.W123, TimerState.WAITING, true, false, 105⟩ 0 rfl (Or.inr rfl) rfl rfl rfl rfl
      (by decide) rfl).imp
      fun _ h => h.imp fun _ h => ⟨h.1, h.2.2.1, h.2.2.2.2.1, h.2.2.2.2.2.2.1⟩⟩

/-- C6. Effect of `reset()`: in every state it sets `lastResetTime` to the clock value
and `resetTriggered` to true, leaves `stopTriggered`, `paused`, `waiting`, the clock, the
thread and the callback history unchanged, and increments the semaphore count by one
if and only if `waiting` is false.  When `waiting` is true the count is unchanged, so a
worker blocked at line 123 or 141 (about to make the call, or asleep in it) on an empty
semaphore is still blocked afterwards. -/
theorem reset_effect_on_shared_state (t : Timer) :
    step Action.reset t = some (reset t) ∧
    (reset t).lastResetTime = t.now ∧ (reset t).resetTriggered = true ∧
    (reset t).stopTriggered = t.stopTriggered ∧ (reset t).paused = t.paused ∧
    (reset t).waiting = t.waiting ∧ (reset t).now = t.now ∧ (reset t).thread = t.thread ∧
    (reset t).calls = t.calls ∧
    ((reset t).semaphore = t.semaphore + 1 ↔ t.waiting = false) ∧
    (t.waiting = false → (reset t).semaphore = t.semaphore + 1) ∧
    (t.waiting = true → (reset t).semaphore = t.semaphore ∧
      ∀ k, t.thread = some k →
        k.pc = Pc.L123 ∨ k.pc = Pc.L141 ∨ k.pc = Pc.W123 ∨ k.pc = Pc.W141 →
        t.semaphore = 0 → step (Action.worker Wake.acquired) (reset t) = none) := by
  cases hw : t.waiting
  · simp [step, reset, hw]
  · simp only [step, reset, hw]
    simp only [if_true, true_and, add_right_eq_self, one_ne_zero, Bool.true_eq_false,
      false_implies, Bool.false_eq_true, iff_self, forall_true_left]
    refine ⟨⟨fun h => by omega, fun h => h.elim⟩, ?_⟩
    intro k hk hpc hsem
    obtain ⟨pc, st, tr, tt, tm⟩ := k
    simp only at hpc
    rcases hpc with rfl | rfl | rfl | rfl <;>
      simp [hk, loop, semWait, semClockWait, semAsleep, semClockAsleep, hsem]

/-- C7, evaluated at `start(); stop(); stop()`.  On a timer without a joinable thread
`stop()` sets the stop flag and posts the semaphore.  After one `stop()` the stop flag
is clear and the semaphore count is 1; the second `stop()` joins no thread but sets the
stop flag again and posts the (destroyed) semaphore again, so the two states differ.
A later `start()` after one `stop()` runs the worker normally (it invokes `onReset`);
after two it makes the worker return at its first check with no callback invoked. -/
theorem second_stop_leaves_stop_flag_set :
    (∀ t : Timer, t.thread = none →
      stop t = some { t with stopTriggered := true, semaphore := t.semaphore + 1 }) ∧
    run stopOnce (init 5 true true 100) = some { init 5 true true 100 with semaphore := 1 } ∧
    run stopTwice (init 5 true true 100) =
      some { init 5 true true 100 with semaphore := 2, stopTriggered := true } ∧
    run stopTwice (init 5 true true 100) ≠ run stopOnce (init 5 true true 100) ∧
    run (stopOnce ++ [Action.start, wstep,
        wstep]) (init 5 true true 100) =
      some { init 5 true true 100 with
        semValid := true, calls := [Callback.onReset],
        thread := some ⟨Pc.L113, TimerState.RESET, true, false, 0⟩ } ∧
    run (stopTwice ++ [Action.start, wstep]) (init 5 true true 100) =
      some { init 5 true true 100 with
        semValid := true, calls := [],
        thread := some ⟨Pc.done, TimerState.STOPPED, false, false, 0⟩ } := by
  refine ⟨fun t ht => ?_, by decide⟩
  simp [stop, stopSignal, stopJoin, ht]

/-- C8, evaluated at a second `start()` while the worker is idle and a release from
`reset()` is pending.  On a timer with a joinable thread `start()` creates no thread
and sets the semaphore count to 0; it leaves the worker as it is, except that a worker
asleep in a wait with nothing posted is no longer known to the semaphore.  Here
`sem_init` sets the count from 1 back to 0: before the second `start()` the worker can
acquire the semaphore, after it the worker is blocked although `resetTriggered` is
set. -/
theorem second_start_discards_pending_release :
    (∀ (t : Timer) (k : Worker), t.thread = some k →
      start t =
        { t with
          semaphore := 0, semValid := true,
          thread := some { k with pc := if t.semaphore = 0 then orphaned k.pc else k.pc } }) ∧
    (∀ (t : Timer) (k : Worker), t.thread = some k →
      (k.pc ≠ Pc.W96 ∧ k.pc ≠ Pc.W123 ∧ k.pc ≠ Pc.W141) ∨ 0 < t.semaphore →
      start t = { t with semaphore := 0, semValid := true }) ∧
    run idleThenReset (init 5 true true 100) =
      some { init 5 true true 100 with
        now := 107, lastResetTime := 107, resetTriggered := true, semaphore := 1,
        semValid := true, calls := [Callback.onReset, Callback.onTimeout],
        thread := some ⟨Pc.L96, TimerState.IDLE, false, false, 105⟩ } ∧
    run (idleThenReset ++ [Action.start]) (init 5 true true 100) =
      some { init 5 true true 100 with
        now := 107, lastResetTime := 107, resetTriggered := true, semaphore := 0,
        semValid := true, calls := [Callback.onReset, Callback.onTimeout],
        thread := some ⟨Pc.L96, TimerState.IDLE, false, false, 105⟩ } ∧
    (run (idleThenReset ++ [Action.worker Wake.acquired]) (init 5 true true 100)).isSome = true ∧
    run (idleThenReset ++ [Action.start, Action.worker Wake.acquired]) (init 5 true true 100) =
      none := by
  refine ⟨fun t k hk => ?_, fun t k hk h => ?_, by decide⟩
  · rw [start_eq]
    simp [hk]
  · rw [start_eq]
    obtain ⟨pc, st, tr, tt, tm⟩ := k
    rcases h with ⟨h1, h2, h3⟩ | h
    · have ho : orphaned pc = pc := by
        cases pc <;> simp_all [orphaned]
      simp [hk, ho]
    · have h0 : t.semaphore ≠ 0 := by omega
      simp [hk, h0]

/-- C9. For every step from a reachable state: the callback history is unchanged, or
the worker at line 109 in state RESET appends `onReset`, or the worker at line 167 in
state IDLE appends `onTimeout`.  The worker arrives at line 109 only from the outer
check of line 90, with the state that check returned; it arrives at line 90 by a step
of its own only in state IDLE or STOPPED, and otherwise is there as created by `start`
(state RESET).  A reset observed at line 113, 131 or 150 puts the worker in state RESET
at line 118, 137 or 155 with no callback invoked, and the recomputation of the deadline
(line 118 or, in state RESET, line 161) returns to WAITING at the head of the inner
loop with no callback invoked. -/
theorem onReset_only_from_outer_reset_state (t t1 : Timer) (a : Action)
    (hr : Reachable t) (hs : step a t = some t1) :
    (t1.calls = t.calls ∨
      (∃ k w, t.thread = some k ∧ a = Action.worker w ∧ k.pc = Pc.L109 ∧
        k.state = TimerState.RESET ∧ t1.calls = t.calls ++ [Callback.onReset]) ∨
      (∃ k w, t.thread = some k ∧ a = Action.worker w ∧ k.pc = Pc.L167 ∧
        k.state = TimerState.IDLE ∧ t1.calls = t.calls ++ [Callback.onTimeout])) ∧
    (∀ k1, t1.thread = some k1 → k1.pc = Pc.L109 →
      ∃ k, t.thread = some k ∧
        (k = k1 ∨
          (k.pc = Pc.L90 ∧
            k1.state = (checkForResetAndStop k.state t.stopTriggered t.resetTriggered).1 ∧
            (k1.triggerReset = true ↔ k1.state = TimerState.RESET)))) ∧
    (∀ k1, t1.thread = some k1 → k1.pc = Pc.L90 →
      t.thread = some k1 ∨ (a = Action.start ∧ t.thread = none ∧ k1 = newWorker) ∨
        k1.state = TimerState.IDLE ∨ k1.state = TimerState.STOPPED) ∧
    (∀ k k1 w, t.thread = some k → a = Action.worker w → t1.thread = some k1 →
      (k.pc = Pc.L113 ∨ k.pc = Pc.L131 ∨ k.pc = Pc.L150) → observes a t = true →
      k1.state = TimerState.RESET ∧ t1.calls = t.calls ∧
        (k1.pc = Pc.L118 ∨ k1.pc = Pc.L137 ∨ k1.pc = Pc.L155)) ∧
    (∀ k k1 w, t.thread = some k → a = Action.worker w → t1.thread = some k1 →
      k.pc = Pc.L161 → k.state = TimerState.RESET →
      k1.state = TimerState.WAITING ∧ k1.pc = Pc.L121 ∧
        k1.triggerTime = t.lastResetTime + t.interval ∧ t1.calls = t.calls) ∧
    (∀ k k1 w, t.thread = some k → a = Action.worker w → t1.thread = some k1 →
      k.pc = Pc.L118 →
      k1.state = TimerState.WAITING ∧ k1.pc = Pc.L121 ∧
        k1.triggerTime = t.now + t.interval ∧ t1.calls = t.calls) := by
  have hi := inv_of_reachable t hr
  by_cases hw : ∃ w, a = Action.worker w
  · obtain ⟨w, rfl⟩ := hw
    simp only [step] at hs
    cases hk : t.thread with
    | none => simp [hk] at hs
    | some k =>
      rw [hk] at hs
      obtain ⟨k1, hk1, hc, h109, h90, hobs, h161, h118⟩ := loop_callbacks w t t1 k hk hi hs
      refine ⟨?_, ?_, ?_, ?_, ?_, ?_⟩
      · rcases hc with hc | ⟨h1, h2, h3⟩ | ⟨h1, h2, h3⟩
        · exact Or.inl hc
        · exact Or.inr (Or.inl ⟨k, w, rfl, rfl, h1, h2, h3⟩)
        · exact Or.inr (Or.inr ⟨k, w, rfl, rfl, h1, h2, h3⟩)
      · intro k1' hk1' hpc
        rw [hk1] at hk1'
        cases hk1'
        exact ⟨k, rfl, Or.inr (h109 hpc)⟩
      · intro k1' hk1' hpc
        rw [hk1] at hk1'
        cases hk1'
        exact Or.inr (Or.inr (h90 hpc))
      · intro k' k1' w' hk' _ hk1' hpc ho
        rw [hk1] at hk1'
        cases hk1'
        cases hk'
        exact hobs hpc ho
      · intro k' k1' w' hk' _ hk1' hpc hst
        rw [hk1] at hk1'
        cases hk1'
        cases hk'
        exact h161 hpc hst
      · intro k' k1' w' hk' _ hk1' hpc
        rw [hk1] at hk1'
        cases hk1'
        cases hk'
        exact h118 hpc
  · have hw' : ∀ w, a ≠ Action.worker w := fun w h => hw ⟨w, h⟩
    obtain ⟨hc, hth⟩ := api_thread_calls a t t1 hs hw'
    refine ⟨Or.inl hc, ?_, ?_, ?_, ?_, ?_⟩
    · intro k1 hk1 hpc
      rcases hth with h | ⟨_, _, h⟩ | ⟨_, k, _, hne, h⟩ | ⟨_, h⟩
      · exact ⟨k1, by rw [← h, hk1], Or.inl rfl⟩
      · rw [h] at hk1
        cases hk1
        simp [newWorker] at hpc
      · rw [h] at hk1
        cases hk1
        simp only at hpc
        rcases orphaned_cases k.pc with ho | ⟨_, ho⟩ | ⟨_, ho⟩ | ⟨_, ho⟩
        · exact absurd ho.symm hne
        · rw [ho] at hpc; cases hpc
        · rw [ho] at hpc; cases hpc
        · rw [ho] at hpc; cases hpc
      · rw [h] at hk1
        cases hk1
    · intro k1 hk1 hpc
      rcases hth with h | ⟨h1, h2, h⟩ | ⟨_, k, _, hne, h⟩ | ⟨_, h⟩
      · exact Or.inl (by rw [← h, hk1])
      · rw [h] at hk1
        cases hk1
        exact Or.inr (Or.inl ⟨h1, h2, rfl⟩)
      · rw [h] at hk1
        cases hk1
        simp only at hpc
        rcases orphaned_cases k.pc with ho | ⟨_, ho⟩ | ⟨_, ho⟩ | ⟨_, ho⟩
        · exact absurd ho.symm hne
        · rw [ho] at hpc; cases hpc
        · rw [ho] at hpc; cases hpc
        · rw [ho] at hpc; cases hpc
      · rw [h] at hk1
        cases hk1
    · intro k k1 w _ ha
      exact absurd ha (hw' w)
    · intro k k1 w _ ha
      exact absurd ha (hw' w)
    · intro k k1 w _ ha
      exact absurd ha (hw' w)

/-- Instance of C9 at the first reset callback of a freshly started timer: the step
from line 109 in state RESET is the one that appends `onReset`. -/
theorem onReset_only_from_outer_reset_state_witness :
    Reachable beforeResetCallback ∧
    step wstep beforeResetCallback = some afterResetCallback ∧
    (afterResetCallback.calls = beforeResetCallback.calls ∨
      (∃ k w, beforeResetCallback.thread = some k ∧ wstep = Action.worker w ∧
        k.pc = Pc.L109 ∧ k.state = TimerState.RESET ∧
        afterResetCallback.calls = beforeResetCallback.calls ++ [Callback.onReset]) ∨
      (∃ k w, beforeResetCallback.thread = some k ∧ wstep = Action.worker w ∧
        k.pc = Pc.L167 ∧ k.state = TimerState.IDLE ∧
        afterResetCallback.calls = beforeResetCallback.calls ++ [Callback.onTimeout])) :=
  ⟨⟨5, true, true, 100, [Action.start, wstep], by decide⟩, by decide,
    (onReset_only_from_outer_reset_state beforeResetCallback afterResetCallback wstep
      ⟨5, true, true, 100, [Action.start, wstep], by decide⟩ (by decide)).1⟩

/-- C10, evaluated at a second `start()` while the worker sleeps in the idle `sem_wait`.
The invariant holds in every reachable state: without a thread `waiting` is false; with
a worker, `waiting` true implies the worker is at line 123, 130, 141 or 149 (inside the
inner loop); and at the idle `sem_wait` of line 96 the state is IDLE, `waiting` is false
and `reset()` increments the semaphore count.  But the post wakes only a worker the
semaphore knows of: a worker that `sem_init` has orphaned cannot acquire after
`reset()`.  On the run `asleepIdle` a `reset()` wakes the sleeping worker, which then
reaches the reset callback; with a second `start()` before the `reset()` the count is 1
and `resetTriggered` is set, yet the worker cannot acquire, and a following `stop()`
posts once more and is blocked in `join`. -/
theorem reset_does_not_wake_worker_after_second_start :
    (∀ t : Timer, Reachable t →
      (t.thread = none → t.waiting = false) ∧
      ∀ k, t.thread = some k →
        (t.waiting = true →
          k.pc = Pc.L123 ∨ k.pc = Pc.W123 ∨ k.pc = Pc.O123 ∨ k.pc = Pc.L130 ∨
            k.pc = Pc.L141 ∨ k.pc = Pc.W141 ∨ k.pc = Pc.O141 ∨ k.pc = Pc.L149) ∧
        (k.pc = Pc.L96 ∨ k.pc = Pc.W96 ∨ k.pc = Pc.O96 →
          k.state = TimerState.IDLE ∧ t.waiting = false ∧
            (reset t).semaphore = t.semaphore + 1)) ∧
    (∀ (t : Timer) (k : Worker), t.thread = some k → k.pc = Pc.O96 →
      step (Action.worker Wake.acquired) (reset t) = none) ∧
    run (asleepIdle ++ [Action.reset, Action.worker Wake.acquired, wstep])
        (init 5 true true 100) =
      some { init 5 true true 100 with
        now := 107, lastResetTime := 107, semValid := true,
        calls := [Callback.onReset, Callback.onTimeout],
        thread := some ⟨Pc.L109, TimerState.RESET, true, false, 105⟩ } ∧
    run (asleepIdle ++ [Action.start, Action.reset]) (init 5 true true 100) =
      some { init 5 true true 100 with
        now := 107, lastResetTime := 107, resetTriggered := true, semaphore := 1,
        semValid := true, calls := [Callback.onReset, Callback.onTimeout],
        thread := some ⟨Pc.O96, TimerState.IDLE, false, false, 105⟩ } ∧
    run (asleepIdle ++ [Action.start, Action.reset, Action.worker Wake.acquired])
        (init 5 true true 100) = none ∧
    run (asleepIdle ++ [Action.start, Action.reset, Action.stopSignal,
        Action.worker Wake.acquired]) (init 5 true true 100) = none ∧
    run (asleepIdle ++ [Action.start, Action.reset, Action.stopSignal, Action.stopJoin])
        (init 5 true true 100) = none := by
  refine ⟨fun t hr => ?_, fun t k hk hpc => ?_, by decide⟩
  · have hi := inv_of_reachable t hr
    constructor
    · intro hn
      simpa [Inv, hn] using hi
    · intro k hk
      simp only [Inv, hk] at hi
      obtain ⟨h1, h2, -⟩ := hi
      refine ⟨h1, fun hpc => ?_⟩
      have hw : t.waiting = false := by
        cases hwt : t.waiting
        · rfl
        · have := h1 hwt
          rcases hpc with hpc | hpc | hpc <;> simp [hpc] at this
      exact ⟨h2 hpc, hw, by simp [reset, hw]⟩
  · obtain ⟨pc, st, tr, tt, tm⟩ := k
    simp only at hpc
    subst hpc
    have hth : (reset t).thread = t.thread := by
      simp only [reset]
      split <;> rfl
    simp [step, hth, hk, loop, semOrphaned]

end OneShotTimer
